import Mathlib

/-!
Shallow embedding of the video-frames sequencer (lib/sequencer.js) and the
lease-renewal loop of the bus (lib/bus.js) of the
clickberry/video-frames-service repository, together with proofs of the
specification claims about them.

Conventions of the embedding:
* JavaScript numbers appearing as frame rates are modelled as exact
  rationals; `Math.round x` is modelled as `⌊x + 1/2⌋` (JS rounds half
  toward +∞).
* The JS expression `i % 0` evaluates to `NaN`, and `NaN !== 0` holds, so a
  filter predicate `i % 0 === 0` rejects every index; this is modelled
  explicitly in `keepIdx`.
* Callback-style fallible steps are modelled with `Option JsError`
  (`none` = success) or `Except JsError α`; an absent `fatal` property on a
  JS error object is modelled as `fatal := false`.
* The asynchronous execution of `downloadAndExtractToS3` is modelled as the
  sequential schedule in which tasks of a batch run in list order; the
  observable behaviour (events emitted, cleanup calls, callback invocation)
  is collected as a `List Action`.
-/

namespace VideoFrames

/-- Model of a JS `Error` object as used by the sequencer: a message plus the
optional `fatal` flag (absent modelled as `false`). -/
structure JsError where
  message : String
  fatal : Bool
deriving DecidableEq, Repr

/-- Model of the `{idx, uri}` frame object emitted with each `frame` event. -/
structure Frame where
  idx : Nat
  uri : String
deriving DecidableEq, Repr

/-- Model of the params object handed to `s3.upload` (source lines 132-138). -/
structure S3Params where
  bucket : String
  key : String
  acl : String
  body : String
  contentType : String
deriving DecidableEq, Repr

/-- Observable actions of one `downloadAndExtractToS3` run: events emitted on
the sequencer, cleanup calls on the two scratch resources, and the final
callback invocation. -/
inductive Action where
  | emitFrame (f : Frame)
  | emitEnd (m : List (Nat × String))
  | emitError (e : JsError)
  | cleanupVideo
  | cleanupFrames
  | callbackOk (m : List (Nat × String))
  | callbackErr (e : JsError)
deriving DecidableEq, Repr

/-! ### Node `path` functions (posix), modelled from the library the source
calls (`path.basename`, `path.extname`). -/

/-- Drop the trailing `/` characters of a path's character list. -/
def stripTrailingSlashes (l : List Char) : List Char :=
  (l.reverse.dropWhile (fun c => c = '/')).reverse

/-- Characters after the last `/` of a character list. -/
def lastComponent (l : List Char) : List Char :=
  (l.reverse.takeWhile (fun c => c ≠ '/')).reverse

/-- Node `path.posix.basename p`: the last path component, with trailing
slashes ignored; `""` for the empty path and `"/"` for an all-slash path. -/
def posixBasename (p : String) : String :=
  let l := stripTrailingSlashes p.data
  if l = [] then (if p.data = [] then "" else "/")
  else ⟨lastComponent l⟩

/-- Index of the last `.` inside a character list, if any. -/
def lastDotIdx (comp : List Char) : Option Nat :=
  match comp.reverse.findIdx? (fun c => c = '.') with
  | none => none
  | some r => some (comp.length - 1 - r)

/-- Node `path.posix.extname p`: the suffix of the last component from its
last dot, except that a component with no dot, a leading-dot-only component
(hidden file) and the component `..` have no extension. -/
def posixExtname (p : String) : String :=
  let comp := lastComponent (stripTrailingSlashes p.data)
  match lastDotIdx comp with
  | none => ""
  | some d =>
    if d = 0 then ""
    else if comp = ['.', '.'] then ""
    else ⟨comp.drop d⟩

/-- Node `path.posix.basename p ext`: the basename with the suffix `ext`
removed when the basename ends with `ext` and differs from it. -/
def posixBasename2 (p ext : String) : String :=
  let b := posixBasename p
  if b ≠ ext ∧ ext.data.isSuffixOf b.data then
    ⟨b.data.take (b.data.length - ext.data.length)⟩
  else b

/-! ### Frame-rate downsampling (source lines 265-270). -/

/-- JS `Math.round`: rounds half toward positive infinity. -/
def jsRound (x : ℚ) : ℤ := ⌊x + 1 / 2⌋

/-- The `idxMultiplier` of the source, `Math.round(videoFps / requiredFps)`,
as a natural number (it is nonnegative for positive frame rates). -/
def strideNat (videoFps requiredFps : ℚ) : Nat :=
  (jsRound (videoFps / requiredFps)).toNat

/-- The filter predicate of source line 268: `i % m !== 0` is false exactly
when `i % m === 0`; for `m = 0` the JS expression `i % 0` is `NaN`, which is
not `0`, so every index is rejected. -/
def keepIdx (m i : Nat) : Bool :=
  if m = 0 then false else i % m = 0

/-- The `frames.filter(function (_, i) ...)` call of source lines 267-270:
retain the elements whose position satisfies `keepIdx m`. -/
def downsample {α : Type} (frames : List α) (m : Nat) : List α :=
  (frames.enum.filter (fun p => keepIdx m p.1)).map Prod.snd

/-- Formalisation of the CLAIM C1's wording (not of the source): the stride
clamped to a minimum of 1 before filtering. -/
def downsampleClaimedClamped {α : Type} (frames : List α) (videoFps requiredFps : ℚ) : List α :=
  downsample frames (max 1 (strideNat videoFps requiredFps))

/-! ### S3 helpers (source lines 127-161). -/

/-- Source `getObjectUri` (lines 159-161). -/
def getObjectUri (s3Bucket key : String) : String :=
  "https://" ++ s3Bucket ++ ".s3.amazonaws.com/" ++ key

/-- The params object built by `uploadFrameToS3` (source lines 129-138):
`key = s3Dir + '/' + s3FileName`, ACL `public-read`, content type
`image/jpeg`, body the streamed local file. -/
def uploadParams (framePath s3Bucket s3Dir s3FileName : String) : S3Params :=
  { bucket := s3Bucket
    key := s3Dir ++ "/" ++ s3FileName
    acl := "public-read"
    body := framePath
    contentType := "image/jpeg" }

/-- Source `uploadFrameToS3` (lines 127-148): the outcome of the `s3.upload`
call is supplied by the environment as a function of the params; on success
the callback receives `getObjectUri s3Bucket key`. -/
def uploadFrameToS3M (uploadOutcome : S3Params → Option JsError)
    (framePath s3Bucket s3Dir s3FileName : String) : Except JsError String :=
  let params := uploadParams framePath s3Bucket s3Dir s3FileName
  match uploadOutcome params with
  | some e => Except.error e
  | none => Except.ok (getObjectUri s3Bucket params.key)

/-! ### Frame-index parsing (source lines 176-180): the regex `/_(\d+)/`
applied to the basename, then `parseInt` of the first capture group. -/

/-- Decimal value of a digit run, as computed by JS `parseInt`. -/
def digitsToNat (ds : List Char) : Nat :=
  ds.foldl (fun n c => n * 10 + (c.toNat - 48)) 0

/-- First occurrence of `_` followed by at least one digit; returns the
maximal digit run after it (the capture group of `/_(\d+)/`). -/
def firstUnderscoreDigits : List Char → Option (List Char)
  | [] => none
  | c :: rest =>
    if c = '_' then
      let ds := rest.takeWhile (fun d => d.isDigit)
      if ds.isEmpty then firstUnderscoreDigits rest else some ds
    else firstUnderscoreDigits rest

/-- The `idx` parsed by `processFrame` from a frame file path (source lines
177-180); `none` models the regex not matching. -/
def parseFrameIdx (file : String) : Option Nat :=
  (firstUnderscoreDigits (posixBasename file).data).map digitsToNat

/-! ### Task, batch and series execution (source lines 174-214 and 281-315),
under the sequential schedule: each task contributes the actions it emits and
its callback result. -/

/-- Source `processFrame` (lines 174-194): parse the index, upload, and on
success emit a `frame` event and yield the frame. A regex mismatch (which in
JS would throw inside the task) is modelled as a failed task. -/
def processFrameM (uploadOutcome : S3Params → Option JsError)
    (s3Bucket s3Dir file : String) : List Action × Except JsError Frame :=
  match parseFrameIdx file with
  | none => ([], Except.error { message := "TypeError", fatal := false })
  | some idx =>
    let s3FileName := toString idx ++ posixExtname file
    match uploadFrameToS3M uploadOutcome file s3Bucket s3Dir s3FileName with
    | Except.error e => ([], Except.error e)
    | Except.ok uri => ([Action.emitFrame { idx := idx, uri := uri }],
                        Except.ok { idx := idx, uri := uri })

/-- Result aggregation of `async.parallel`: the first error in completion
order (list order under the sequential schedule), or the list of all
results. -/
def firstErrAll : List (Except JsError Frame) → Except JsError (List Frame)
  | [] => Except.ok []
  | Except.error e :: _ => Except.error e
  | Except.ok f :: rest => (firstErrAll rest).map (fun fs => f :: fs)

/-- Source `processBatch` (lines 203-214): all tasks of the batch are started
(so all their actions occur), and the batch settles with the first error or
with all results. -/
def processBatchM (tasks : List (List Action × Except JsError Frame)) :
    List Action × Except JsError (List Frame) :=
  ((tasks.map Prod.fst).flatten, firstErrAll (tasks.map Prod.snd))

/-- Semantics of `async.series` (source lines 295-315): batches run in order;
after the first failing batch no further batch is started. -/
def seriesM : List (List Action × Except JsError (List Frame)) →
    List Action × Except JsError (List (List Frame))
  | [] => ([], Except.ok [])
  | b :: rest =>
    match b.2 with
    | Except.error e => (b.1, Except.error e)
    | Except.ok r =>
      let p := seriesM rest
      (b.1 ++ p.1, p.2.map (fun rs => r :: rs))

/-- JS `Array.prototype.slice(start, stop)` for in-range nonnegative
arguments. -/
def jsSlice {α : Type} (l : List α) (start stop : Nat) : List α :=
  (l.drop start).take (stop - start)

/-- The batching loop of `downloadAndExtractToS3` (source lines 281-291):
`batchNumber = Math.floor(tasks.length / batchSize) + 1` slices of the task
list. -/
def makeBatches {α : Type} (tasks : List α) (batchSize : Nat) : List (List α) :=
  let batchNumber := tasks.length / batchSize + 1
  (List.range batchNumber).map
    (fun i => jsSlice tasks (i * batchSize) (min ((i + 1) * batchSize) tasks.length))

/-- The `Sequencer` constructor's batch size (source lines 26-38):
`options.batchSize || 100`, so an absent or zero (falsy) option yields
100. -/
def sequencerBatchSize (optBatchSize : Option Nat) : Nat :=
  match optBatchSize with
  | none => 100
  | some 0 => 100
  | some b => b

/-! ### Frame-map construction (source lines 299-304). -/

/-- JS object assignment `res[k] = v`: overwrite an existing key, otherwise
append the binding. -/
def objAssign (m : List (Nat × String)) (k : Nat) (v : String) : List (Nat × String) :=
  if m.any (fun p => p.1 = k) then
    m.map (fun p => if p.1 = k then (k, v) else p)
  else m ++ [(k, v)]

/-- Fold of `res[f.idx] = f.uri` over a list of frames. -/
def frameMapOf (fs : List Frame) : List (Nat × String) :=
  fs.foldl (fun m f => objAssign m f.idx f.uri) []

/-- The nested `results.forEach`/`b.forEach` of source lines 299-304. -/
def buildFrameMap (results : List (List Frame)) : List (Nat × String) :=
  frameMapOf results.flatten

/-! ### The full `downloadAndExtractToS3` operation (source lines 230-320). -/

/-- Environment of one `downloadAndExtractToS3` call: its arguments, the
sequencer's batch size, and the outcomes of the external steps (temp-file
creation, download, temp-dir creation, ffmpeg decode, and each s3 upload as a
function of its params; `none` means the step succeeds). -/
structure PipelineEnv where
  videoId : String
  videoUri : String
  s3Bucket : String
  videoFps : ℚ
  requiredFps : ℚ
  batchSize : Nat
  tmpFile : Option JsError
  download : Option JsError
  tmpDir : Option JsError
  decode : Except JsError (List String)
  upload : S3Params → Option JsError

/-- The `s3Dir` of source line 276:
`videoId + '/' + path.basename(videoUri, path.extname(videoUri))`. -/
def s3DirOf (env : PipelineEnv) : String :=
  env.videoId ++ "/" ++ posixBasename2 env.videoUri (posixExtname env.videoUri)

/-- The frames remaining after the fps filter (source lines 266-270). -/
def retainedOf (env : PipelineEnv) (frames : List String) : List String :=
  downsample frames (strideNat env.videoFps env.requiredFps)

/-- The upload task list of source lines 275-279. -/
def tasksOf (env : PipelineEnv) (frames : List String) :
    List (List Action × Except JsError Frame) :=
  (retainedOf env frames).map (processFrameM env.upload env.s3Bucket (s3DirOf env))

/-- The batched-serial upload run of source lines 281-295. -/
def uploadPhase (env : PipelineEnv) (frames : List String) :
    List Action × Except JsError (List (List Frame)) :=
  seriesM ((makeBatches (tasksOf env frames) env.batchSize).map processBatchM)

/-- Observable behaviour of `downloadAndExtractToS3` (source lines 230-320):
`handleError` emits `error` then calls the callback with the error; the
temp video file is cleaned at the head of the decode callback; on full upload
success the frames dir is cleaned, `end` is emitted with the frame map, and
the callback resolves with the same map. -/
def downloadAndExtractToS3 (env : PipelineEnv) : List Action :=
  match env.tmpFile with
  | some e => [Action.emitError e, Action.callbackErr e]
  | none =>
    match env.download with
    | some e => [Action.emitError e, Action.callbackErr e]
    | none =>
      match env.tmpDir with
      | some e => [Action.emitError e, Action.callbackErr e]
      | none =>
        match env.decode with
        | Except.error e => [Action.cleanupVideo, Action.emitError e, Action.callbackErr e]
        | Except.ok frames =>
          let p := uploadPhase env frames
          Action.cleanupVideo :: p.1 ++
            (match p.2 with
             | Except.error e => [Action.emitError e, Action.callbackErr e]
             | Except.ok results =>
               [Action.cleanupFrames, Action.emitEnd (buildFrameMap results),
                Action.callbackOk (buildFrameMap results)])

/-- The frame produced by a retained file when its upload succeeds: index
parsed from the name, URI of the uploaded object. -/
def successFrame (env : PipelineEnv) (file : String) : Frame :=
  let idx := (parseFrameIdx file).getD 0
  { idx := idx
    uri := getObjectUri env.s3Bucket
      (uploadParams file env.s3Bucket (s3DirOf env) (toString idx ++ posixExtname file)).key }

/-! ### `downloadFile` response validation (source lines 54-89). -/

/-- Abstract HTTP response: status code and `content-type` header. -/
structure HttpResponse where
  statusCode : Nat
  contentType : String
deriving DecidableEq, Repr

/-- The `response` handler of `downloadFile` (source lines 73-83): a non-200
status or a content type not beginning with `video/` produces an error with
`fatal = true`; otherwise no error is reported by this handler. -/
def downloadResponseError (uri : String) (res : HttpResponse) : Option JsError :=
  if res.statusCode ≠ 200 then
    some { message := "Invalid status code: " ++ toString res.statusCode ++
                      " while downloading " ++ uri
           fatal := true }
  else if ¬ res.contentType.startsWith "video/" then
    some { message := "Video file expected by URI: " ++ uri ++
                      ", but content type " ++ res.contentType ++ " received"
           fatal := true }
  else none

/-- The `error` handler of `downloadFile` (source lines 84-87): the stream
error is passed to the callback unchanged, so without a `fatal` mark. -/
def downloadStreamError (message : String) : JsError :=
  { message := message, fatal := false }

/-! ### Lease renewal (bus source lines 33-46). -/

/-- State of the queue message as observed when a scheduled `touch` timer
fires: whether the message has been responded to, and the remaining lease
time `timeUntilTimeout()`. -/
structure LeaseObs where
  hasResponded : Bool
  timeUntilTimeout : Int
deriving DecidableEq, Repr

/-- Delay used at both `setTimeout` call sites (bus lines 40 and 43): one
second before the lease times out. -/
def leaseDelay (o : LeaseObs) : Int := o.timeUntilTimeout - 1000

/-- Run of the `touch` timer loop over the message states observed at
successive timer firings: while the message is unresponded, each firing calls
`msg.touch()` (`true`) and re-schedules with `leaseDelay`; at the first
responded observation it does neither and the loop ends. -/
def touchRun : List LeaseObs → List (Bool × Option Int)
  | [] => []
  | o :: rest =>
    if o.hasResponded then [(false, none)]
    else (true, some (leaseDelay o)) :: touchRun rest

/-! ### Action classification predicates (used to count occurrences in a
trace). -/

def isCleanupVideoA : Action → Bool
  | Action.cleanupVideo => true
  | _ => false

def isCleanupFramesA : Action → Bool
  | Action.cleanupFrames => true
  | _ => false

def isCallbackErrA : Action → Bool
  | Action.callbackErr _ => true
  | _ => false

def isCallbackOkA : Action → Bool
  | Action.callbackOk _ => true
  | _ => false

def isEmitEndA : Action → Bool
  | Action.emitEnd _ => true
  | _ => false

/-! ### Concrete environments used by witnesses and counterexamples. -/

/-- A transient upload error (no `fatal` property). -/
def eBoom : JsError := { message := "boom", fatal := false }

/-- A transient network error (no `fatal` property). -/
def eNet : JsError := { message := "socket hang up", fatal := false }

/-- A decode error reported by the ffmpeg wrapper. -/
def eDecode : JsError := { message := "bad codec", fatal := false }

/-- A run in which every step succeeds: two decoded frames, stride 1. -/
def envOkW : PipelineEnv :=
  { videoId := "vid"
    videoUri := "http://h/seg.mp4"
    s3Bucket := "bkt"
    videoFps := 1
    requiredFps := 1
    batchSize := 100
    tmpFile := none
    download := none
    tmpDir := none
    decode := Except.ok ["d/a_1.jpg", "d/a_2.jpg"]
    upload := fun _ => none }

/-- A run in which the only upload fails. -/
def envUpFail : PipelineEnv :=
  { envOkW with decode := Except.ok ["d/a_1.jpg"], upload := fun _ => some eBoom }

/-- A run in which the download fails with a network error. -/
def envDlFail : PipelineEnv :=
  { envOkW with download := some eNet }

/-- A run in which the decode fails. -/
def envDecFail : PipelineEnv :=
  { envOkW with decode := Except.error eDecode }

/-- A run in which the decode yields no frames. -/
def envEmptyW : PipelineEnv :=
  { envOkW with decode := Except.ok [] }

/-- A run with `requiredFps` more than double `videoFps` (rounded stride 0). -/
def envZeroW : PipelineEnv :=
  { envOkW with requiredFps := 3, decode := Except.ok ["d/a_1.jpg"] }

/-- A run of two frames in one batch whose second upload fails. -/
def envBatchFail : PipelineEnv :=
  { envOkW with
      upload := fun p => if p.key = "vid/seg/2.jpg" then some eBoom else none }

/-! ### Evaluation lemmas for concrete strides. -/

lemma stride_eval_30_2 : strideNat 30 2 = 15 := by
  have h : ⌊(30 : ℚ) / 2 + 1 / 2⌋ = 15 := by norm_num
  rw [strideNat, jsRound, h]
  rfl

lemma stride_eval_1_3 : strideNat 1 3 = 0 := by
  have h : ⌊(1 : ℚ) / 3 + 1 / 2⌋ = 0 := by norm_num
  rw [strideNat, jsRound, h]
  rfl

lemma stride_eval_1_1 : strideNat 1 1 = 1 := by
  have h : ⌊(1 : ℚ) / 1 + 1 / 2⌋ = 1 := by norm_num
  rw [strideNat, jsRound, h]
  rfl

/-- Rounding `videoFps / requiredFps` yields 0 exactly in the regime where
the required rate is more than double the video rate. -/
lemma strideNat_eq_zero (v r : ℚ) (hv : 0 < v) (hr : 2 * v < r) :
    strideNat v r = 0 := by
  have hr0 : 0 < r := lt_trans (by linarith) hr
  have hfrac : v / r < 1 / 2 := by
    rw [div_lt_div_iff₀ hr0 (by norm_num : (0:ℚ) < 2)]
    linarith
  have hnn : 0 ≤ v / r + 1 / 2 := by positivity
  have hlt : v / r + 1 / 2 < 1 := by linarith
  have hfloor : ⌊v / r + 1 / 2⌋ = 0 := by
    rw [Int.floor_eq_zero_iff]
    exact ⟨hnn, hlt⟩
  rw [strideNat, jsRound, hfloor]
  rfl

/-! ### Downsampling lemmas. -/

/-- With stride 0 the filter predicate rejects everything (`i % 0` is `NaN`
in JS), so no frame is retained. -/
lemma downsample_zero {α : Type} (frames : List α) : downsample frames 0 = [] := by
  simp [downsample, keepIdx]

lemma downsample_enumFrom {α : Type} (m : Nat) (hm : m ≠ 0) :
    ∀ (l : List α) (s : Nat),
      ((l.enumFrom s).filter (fun p => keepIdx m p.1)).map Prod.snd =
      ((List.range l.length).filter (fun i => decide ((s + i) % m = 0))).filterMap
        (fun i => l[i]?) := by
  intro l
  induction l with
  | nil => intro s; simp
  | cons a l ih =>
    intro s
    have hsucc : ∀ i : Nat, s + (i + 1) = (s + 1) + i := by omega
    simp only [keepIdx, if_neg hm] at ih ⊢
    rw [List.enumFrom_cons, List.length_cons, List.range_succ_eq_map,
        List.filter_cons, List.filter_cons]
    have hfun : ((fun i => (a :: l)[i]?) ∘ Nat.succ) = (fun i : Nat => l[i]?) := by
      funext i
      simp
    have hpred : ∀ i ∈ List.range l.length,
        ((fun i => decide ((s + i) % m = 0)) ∘ Nat.succ) i =
          (fun i => decide (((s + 1) + i) % m = 0)) i := by
      intro i _
      simp only [Function.comp_apply]
      rw [Nat.succ_eq_add_one, hsucc i]
    by_cases hs : s % m = 0
    · rw [if_pos (by simp [hs]), if_pos (by simp [hs]), List.map_cons, List.filterMap_cons]
      simp only [List.getElem?_cons_zero]
      rw [List.filter_map, List.filterMap_map, hfun, List.filter_congr hpred, ih (s + 1)]
    · rw [if_neg (by simp [hs]), if_neg (by simp [hs])]
      rw [List.filter_map, List.filterMap_map, hfun, List.filter_congr hpred, ih (s + 1)]

/-- For a nonzero stride the retained frames are exactly those whose decoded
index is a multiple of the stride. -/
lemma downsample_eq_multiples {α : Type} (frames : List α) (m : Nat) (hm : m ≠ 0) :
    downsample frames m =
      ((List.range frames.length).filter (fun i => decide (i % m = 0))).filterMap
        (fun i => frames[i]?) := by
  have h := downsample_enumFrom m hm frames 0
  simp only [Nat.zero_add] at h
  rw [downsample, show frames.enum = frames.enumFrom 0 from rfl]
  exact h

/-- Stride 1 retains every frame. -/
lemma downsample_one {α : Type} (frames : List α) : downsample frames 1 = frames := by
  have h : ∀ (l : List α) (s : Nat),
      ((l.enumFrom s).filter (fun p => keepIdx 1 p.1)).map Prod.snd = l := by
    intro l
    induction l with
    | nil => intro s; simp
    | cons a l ih =>
      intro s
      rw [List.enumFrom_cons, List.filter_cons]
      rw [if_pos (by simp [keepIdx, Nat.mod_one])]
      rw [List.map_cons, ih (s + 1)]
  rw [downsample, show frames.enum = frames.enumFrom 0 from rfl]
  exact h frames 0

/-! ### Batching lemmas. -/

lemma jsSlice_eq_drop_take {α : Type} (ts : List α) (B i : Nat) :
    jsSlice ts (i * B) (min ((i + 1) * B) ts.length) = (ts.drop (i * B)).take B := by
  rw [jsSlice, List.take_eq_take]
  simp only [List.length_drop]
  rw [Nat.succ_mul]
  generalize i * B = s
  omega

lemma flatten_slices {α : Type} (ts : List α) (B : Nat) :
    ∀ (k s : Nat),
      ((List.range k).map (fun i => (ts.drop (s + i * B)).take B)).flatten =
        (ts.drop s).take (k * B) := by
  intro k
  induction k with
  | zero => intro s; simp
  | succ k ih =>
    intro s
    rw [List.range_succ_eq_map, List.map_cons, List.flatten_cons]
    simp only [Nat.zero_mul, Nat.add_zero, List.map_map]
    have hfun : ((fun i => (ts.drop (s + i * B)).take B) ∘ Nat.succ)
        = (fun i => (ts.drop ((s + B) + i * B)).take B) := by
      funext i
      simp only [Function.comp_apply]
      congr 2
      rw [Nat.succ_mul]
      omega
    rw [hfun, ih (s + B), Nat.succ_mul, Nat.add_comm (k * B) B, List.take_add,
        List.drop_drop]

/-- The batches concatenate back to the full task list (the trailing slice is
empty when `B` divides the length). -/
lemma makeBatches_flatten {α : Type} (ts : List α) (B : Nat) (hB : B ≠ 0) :
    (makeBatches ts B).flatten = ts := by
  rw [makeBatches]
  have hsl : ∀ i : Nat,
      jsSlice ts (i * B) (min ((i + 1) * B) ts.length) = (ts.drop (0 + i * B)).take B := by
    intro i
    rw [Nat.zero_add, jsSlice_eq_drop_take]
  simp only [hsl]
  rw [flatten_slices ts B (ts.length / B + 1) 0, List.drop_zero]
  apply List.take_of_length_le
  have h1 : B * (ts.length / B) + ts.length % B = ts.length := Nat.div_add_mod ts.length B
  have h2 : ts.length % B < B := Nat.mod_lt ts.length (Nat.pos_of_ne_zero hB)
  have hc : (ts.length / B + 1) * B = B * (ts.length / B) + B := by
    rw [Nat.succ_mul, Nat.mul_comm]
  omega

/-- The number of batches produced by the source loop. -/
lemma makeBatches_length {α : Type} (ts : List α) (B : Nat) :
    (makeBatches ts B).length = ts.length / B + 1 := by
  rw [makeBatches]
  simp

/-- Every batch holds at most `B` tasks. -/
lemma makeBatches_le {α : Type} (ts : List α) (B : Nat) :
    ∀ b ∈ makeBatches ts B, b.length ≤ B := by
  intro b hb
  rw [makeBatches] at hb
  simp only [List.mem_map, List.mem_range] at hb
  obtain ⟨i, _, rfl⟩ := hb
  rw [jsSlice_eq_drop_take, List.length_take]
  exact Nat.min_le_left _ _

/-- Every task of every batch is a task of the original list. -/
lemma makeBatches_mem {α : Type} (ts : List α) (B : Nat) :
    ∀ b ∈ makeBatches ts B, ∀ t ∈ b, t ∈ ts := by
  intro b hb t ht
  rw [makeBatches] at hb
  simp only [List.mem_map, List.mem_range] at hb
  obtain ⟨i, _, rfl⟩ := hb
  rw [jsSlice] at ht
  exact List.drop_subset _ _ (List.take_subset _ _ ht)

/-- Batching commutes with mapping the tasks. -/
lemma makeBatches_map {α β : Type} (ts : List α) (g : α → β) (B : Nat) :
    makeBatches (ts.map g) B = (makeBatches ts B).map (List.map g) := by
  rw [makeBatches, makeBatches, List.map_map]
  simp only [List.length_map]
  apply List.map_congr_left
  intro i _
  simp only [Function.comp_apply, jsSlice, List.map_take, List.map_drop]

/-! ### Series and batch execution lemmas. -/

/-- When every chunk of tasks is of the all-successful shape, the series
collects all their actions in order and returns all their results. -/
lemma seriesM_map_ok {β : Type} (l : List (List β))
    (af : β → Action) (rf : β → Frame) :
    seriesM (l.map (fun c => (c.map af, Except.ok (c.map rf)))) =
      ((l.flatten.map af), Except.ok (l.map (fun c => c.map rf))) := by
  induction l with
  | nil => rfl
  | cons c l ih =>
    rw [List.map_cons, seriesM]
    simp only [ih, List.flatten_cons, List.map_append, List.map_cons, Except.map]

/-- Series execution over an all-successful prefix followed by a failing
batch: the actions of the prefix and of the failing batch occur, the batches
after the failure are never started, and the first error is propagated. -/
lemma seriesM_prefix_err (pre rest : List (List Action × Except JsError (List Frame)))
    (b : List Action × Except JsError (List Frame)) (e : JsError)
    (hpre : ∀ x ∈ pre, ∃ r, x.2 = Except.ok r) (hb : b.2 = Except.error e) :
    seriesM (pre ++ b :: rest) = ((pre.map Prod.fst).flatten ++ b.1, Except.error e) := by
  induction pre with
  | nil =>
    simp only [List.nil_append, List.map_nil, List.flatten_nil]
    rw [seriesM, hb]
  | cons x pre ih =>
    obtain ⟨r, hr⟩ := hpre x (List.mem_cons_self x pre)
    rw [List.cons_append, seriesM, hr]
    have ih2 := ih (fun y hy => hpre y (List.mem_cons_of_mem x hy))
    simp only [ih2, List.map_cons, List.flatten_cons, List.append_assoc, Except.map]

/-- Every action of a series run comes from one of its batches. -/
lemma mem_seriesM_acts (bs : List (List Action × Except JsError (List Frame))) :
    ∀ a ∈ (seriesM bs).1, ∃ x ∈ bs, a ∈ x.1 := by
  induction bs with
  | nil => intro a ha; simp [seriesM] at ha
  | cons b bs ih =>
    intro a ha
    rw [seriesM] at ha
    cases hb : b.2 with
    | error e =>
      rw [hb] at ha
      exact ⟨b, List.mem_cons_self b bs, ha⟩
    | ok r =>
      rw [hb] at ha
      simp only [List.mem_append] at ha
      cases ha with
      | inl h => exact ⟨b, List.mem_cons_self b bs, h⟩
      | inr h =>
        obtain ⟨x, hx, hax⟩ := ih a h
        exact ⟨x, List.mem_cons_of_mem b hx, hax⟩

/-- Every action of a batch run comes from one of its tasks. -/
lemma mem_processBatchM_acts (ts : List (List Action × Except JsError Frame)) :
    ∀ a ∈ (processBatchM ts).1, ∃ t ∈ ts, a ∈ t.1 := by
  intro a ha
  rw [processBatchM] at ha
  simp only [List.mem_flatten, List.mem_map] at ha
  obtain ⟨l, ⟨t, ht, rfl⟩, hal⟩ := ha
  exact ⟨t, ht, hal⟩

/-- A task only ever emits `frame` events. -/
lemma processFrameM_acts (o : S3Params → Option JsError) (bkt dir file : String) :
    ∀ a ∈ (processFrameM o bkt dir file).1, ∃ f, a = Action.emitFrame f := by
  intro a ha
  cases hp : parseFrameIdx file with
  | none => simp [processFrameM, hp] at ha
  | some idx =>
    cases hu : uploadFrameToS3M o file bkt dir (toString idx ++ posixExtname file) with
    | error e => simp [processFrameM, hp, hu] at ha
    | ok uri =>
      simp only [processFrameM, hp, hu, List.mem_singleton] at ha
      exact ⟨_, ha⟩

/-- The upload phase only ever emits `frame` events (in particular no cleanup
action and no terminal event happens inside it). -/
lemma uploadPhase_acts (env : PipelineEnv) (frames : List String) :
    ∀ a ∈ (uploadPhase env frames).1, ∃ f, a = Action.emitFrame f := by
  intro a ha
  rw [uploadPhase] at ha
  obtain ⟨x, hx, hax⟩ := mem_seriesM_acts _ a ha
  simp only [List.mem_map] at hx
  obtain ⟨bt, hbt, rfl⟩ := hx
  obtain ⟨t, ht, hat⟩ := mem_processBatchM_acts bt a hax
  have ht2 := makeBatches_mem _ _ bt hbt t ht
  rw [tasksOf] at ht2
  simp only [List.mem_map] at ht2
  obtain ⟨file, _, rfl⟩ := ht2
  exact processFrameM_acts _ _ _ file a hat

/-! ### The all-uploads-succeed shape of tasks, batches and the series. -/

/-- Shape of a task whose file name parses and whose upload succeeds. -/
lemma processFrameM_ok (env : PipelineEnv) (file : String) (idx : Nat)
    (hp : parseFrameIdx file = some idx)
    (hu : env.upload (uploadParams file env.s3Bucket (s3DirOf env)
            (toString idx ++ posixExtname file)) = none) :
    processFrameM env.upload env.s3Bucket (s3DirOf env) file =
      ([Action.emitFrame (successFrame env file)], Except.ok (successFrame env file)) := by
  simp only [processFrameM, hp, uploadFrameToS3M, hu, successFrame, Option.getD_some]

/-- When every upload succeeds and every retained name parses, the task list
is the mapped success shape. -/
lemma tasksOf_ok (env : PipelineEnv) (frames : List String)
    (hparse : ∀ file ∈ retainedOf env frames, (parseFrameIdx file).isSome)
    (hupload : ∀ p, env.upload p = none) :
    tasksOf env frames = (retainedOf env frames).map
      (fun file => ([Action.emitFrame (successFrame env file)],
                    Except.ok (successFrame env file))) := by
  rw [tasksOf]
  apply List.map_congr_left
  intro file hf
  obtain ⟨idx, hp⟩ := Option.isSome_iff_exists.mp (hparse file hf)
  exact processFrameM_ok env file idx hp (hupload _)

lemma flatten_singletons {α β : Type} (c : List α) (f : α → β) :
    (c.map (fun x => [f x])).flatten = c.map f := by
  induction c with
  | nil => rfl
  | cons x c ih => simp [ih]

lemma firstErrAll_map_ok (c : List String) (rf : String → Frame) :
    firstErrAll (c.map (fun x => Except.ok (rf x))) = Except.ok (c.map rf) := by
  induction c with
  | nil => rfl
  | cons x c ih => simp [firstErrAll, ih, Except.map]

/-- A batch of all-successful tasks emits the frame events of its tasks in
order and returns all their frames. -/
lemma processBatchM_map_ok (c : List String) (F : String → Frame) :
    processBatchM (c.map (fun file => ([Action.emitFrame (F file)], Except.ok (F file)))) =
      (c.map (fun file => Action.emitFrame (F file)), Except.ok (c.map F)) := by
  rw [processBatchM]
  simp only [List.map_map]
  rw [show ((fun x => Prod.fst x) ∘ fun file =>
        (([Action.emitFrame (F file)] : List Action), Except.ok (F file))) =
      (fun file => ([Action.emitFrame (F file)] : List Action)) from rfl]
  rw [flatten_singletons]
  rw [show ((fun x => Prod.snd x) ∘ fun file =>
        (([Action.emitFrame (F file)] : List Action), Except.ok (F file))) =
      (fun file => (Except.ok (F file) : Except JsError Frame)) from rfl]
  rw [firstErrAll_map_ok]

/-- The full upload phase when every upload succeeds: one `frame` event per
retained file, in order, and all frames returned grouped by batch. -/
lemma uploadPhase_ok (env : PipelineEnv) (frames : List String)
    (hB : env.batchSize ≠ 0)
    (hparse : ∀ file ∈ retainedOf env frames, (parseFrameIdx file).isSome)
    (hupload : ∀ p, env.upload p = none) :
    uploadPhase env frames =
      ((retainedOf env frames).map (fun file => Action.emitFrame (successFrame env file)),
       Except.ok ((makeBatches (retainedOf env frames) env.batchSize).map
         (fun c => c.map (successFrame env)))) := by
  rw [uploadPhase, tasksOf_ok env frames hparse hupload, makeBatches_map, List.map_map]
  rw [show (processBatchM ∘ List.map (fun file =>
        ([Action.emitFrame (successFrame env file)], Except.ok (successFrame env file)))) =
      (fun c => (c.map (fun file => Action.emitFrame (successFrame env file)),
                 Except.ok (c.map (successFrame env)))) from
    funext (fun c => processBatchM_map_ok c (successFrame env))]
  rw [seriesM_map_ok, makeBatches_flatten _ _ hB]

/-! ### Frame-map lemmas. -/

lemma foldl_objAssign (fs : List Frame) :
    ∀ acc : List (Nat × String),
      (∀ f ∈ fs, ∀ p ∈ acc, p.1 ≠ f.idx) → (fs.map Frame.idx).Nodup →
      fs.foldl (fun m f => objAssign m f.idx f.uri) acc =
        acc ++ fs.map (fun f => (f.idx, f.uri)) := by
  induction fs with
  | nil => intro acc _ _; simp
  | cons f fs ih =>
    intro acc hacc hnd
    rw [List.map_cons, List.nodup_cons] at hnd
    have hno : ¬ (acc.any (fun p => p.1 = f.idx) = true) := by
      simp only [List.any_eq_true, not_exists]
      intro p
      rw [not_and]
      intro hp
      simpa using hacc f (List.mem_cons_self f fs) p hp
    rw [List.foldl_cons, objAssign, if_neg hno]
    rw [ih (acc ++ [(f.idx, f.uri)]) ?_ hnd.2]
    · simp
    · intro g hg p hp
      rcases List.mem_append.mp hp with h | h
      · exact hacc g (List.mem_cons_of_mem f hg) p h
      · rw [List.mem_singleton] at h
        subst h
        intro hcontra
        apply hnd.1
        have hfg : f.idx = g.idx := hcontra
        rw [hfg]
        exact List.mem_map_of_mem Frame.idx hg

/-- With pairwise distinct indices, the frame map is exactly the association
list of the frames in upload order. -/
lemma frameMapOf_nodup (fs : List Frame) (hnd : (fs.map Frame.idx).Nodup) :
    frameMapOf fs = fs.map (fun f => (f.idx, f.uri)) := by
  rw [frameMapOf, foldl_objAssign fs [] (by intro f _ p hp; simp at hp) hnd]
  simp

/-! ### Basename decomposition. -/

lemma posixBasename2_empty (p : String) : posixBasename2 p "" = posixBasename p := by
  rw [posixBasename2]
  by_cases hb : posixBasename p = ""
  · rw [if_neg]
    simp [hb]
  · rw [if_pos ⟨hb, by simp [List.isSuffixOf_iff_suffix]⟩]
    apply String.ext
    show (posixBasename p).data.take ((posixBasename p).data.length - ([] : List Char).length) =
      (posixBasename p).data
    rw [List.length_nil, Nat.sub_zero, List.take_length]

/-- The basename splits as `segmentBaseName ++ extension`: what the source
passes as `s3Dir`'s second component is the video URI's base name with its
extension removed. -/
lemma basename2_ext_append (p : String) (hne : posixBasename p ≠ posixExtname p) :
    posixBasename2 p (posixExtname p) ++ posixExtname p = posixBasename p := by
  by_cases hext : posixExtname p = ""
  · rw [hext, posixBasename2_empty]
    simp
  · cases hl : lastDotIdx (lastComponent (stripTrailingSlashes p.data)) with
    | none => exact absurd (by simp only [posixExtname, hl]) hext
    | some d =>
      by_cases h0 : d = 0
      · exact absurd (by simp only [posixExtname, hl]; rw [if_pos h0]) hext
      by_cases hdd : lastComponent (stripTrailingSlashes p.data) = ['.', '.']
      · exact absurd (by simp only [posixExtname, hl]; rw [if_neg h0, if_pos hdd]) hext
      have hE : posixExtname p = ⟨(lastComponent (stripTrailingSlashes p.data)).drop d⟩ := by
        simp only [posixExtname, hl]
        rw [if_neg h0, if_neg hdd]
      obtain ⟨r, hr, hd⟩ : ∃ r,
          (lastComponent (stripTrailingSlashes p.data)).reverse.findIdx? (fun c => c = '.') =
            some r ∧
          d = (lastComponent (stripTrailingSlashes p.data)).length - 1 - r := by
        rw [lastDotIdx] at hl
        cases hr : (lastComponent (stripTrailingSlashes p.data)).reverse.findIdx?
            (fun c => c = '.') with
        | none => rw [hr] at hl; simp at hl
        | some r =>
          rw [hr] at hl
          simp only [Option.some.injEq] at hl
          exact ⟨r, rfl, hl.symm⟩
      have hcompne : lastComponent (stripTrailingSlashes p.data) ≠ [] := by
        intro h
        rw [h] at hr
        simp at hr
      have hdle : d ≤ (lastComponent (stripTrailingSlashes p.data)).length := by omega
      have hb : posixBasename p = ⟨lastComponent (stripTrailingSlashes p.data)⟩ := by
        rw [posixBasename]
        rw [if_neg]
        intro h
        apply hcompne
        rw [lastComponent, h]
        simp
      rw [hE, hb]
      rw [hE, hb] at hne
      rw [posixBasename2, hb]
      rw [if_pos ⟨hne, by simp [List.isSuffixOf_iff_suffix, List.drop_suffix]⟩]
      show String.mk _ ++ String.mk _ = String.mk _
      apply String.ext
      show (_ ++ _ : List Char) = _
      rw [List.length_drop]
      rw [show (lastComponent (stripTrailingSlashes p.data)).length -
            ((lastComponent (stripTrailingSlashes p.data)).length - d) = d by omega]
      exact List.take_append_drop d _

/-! ### Trace-level lemmas about `downloadAndExtractToS3`. -/

/-- Trace of a run that reaches the decode step with a successful decode: the
video file is cleaned first, then the upload phase runs, then the terminal
actions determined by the phase's outcome happen. -/
lemma run_decode_ok (env : PipelineEnv) (frames : List String)
    (h1 : env.tmpFile = none) (h2 : env.download = none) (h3 : env.tmpDir = none)
    (h4 : env.decode = Except.ok frames) :
    downloadAndExtractToS3 env =
      Action.cleanupVideo :: (uploadPhase env frames).1 ++
        (match (uploadPhase env frames).2 with
         | Except.error e => [Action.emitError e, Action.callbackErr e]
         | Except.ok results =>
           [Action.cleanupFrames, Action.emitEnd (buildFrameMap results),
            Action.callbackOk (buildFrameMap results)]) := by
  simp only [downloadAndExtractToS3, h1, h2, h3, h4]

/-- Trace of a run whose decode fails: the video file is still cleaned, then
the error is surfaced. -/
lemma run_decode_err (env : PipelineEnv) (e : JsError)
    (h1 : env.tmpFile = none) (h2 : env.download = none) (h3 : env.tmpDir = none)
    (h4 : env.decode = Except.error e) :
    downloadAndExtractToS3 env =
      [Action.cleanupVideo, Action.emitError e, Action.callbackErr e] := by
  simp only [downloadAndExtractToS3, h1, h2, h3, h4]

/-- A run whose filter retains no frame settles successfully with the empty
frame map. -/
lemma run_empty_retained (env : PipelineEnv) (frames : List String)
    (h1 : env.tmpFile = none) (h2 : env.download = none) (h3 : env.tmpDir = none)
    (h4 : env.decode = Except.ok frames)
    (hempty : retainedOf env frames = []) :
    downloadAndExtractToS3 env =
      [Action.cleanupVideo, Action.cleanupFrames, Action.emitEnd [], Action.callbackOk []] := by
  have hup : uploadPhase env frames = ([], Except.ok [[]]) := by
    rw [uploadPhase, tasksOf, hempty]
    simp [makeBatches, jsSlice, processBatchM, firstErrAll, seriesM, Except.map]
  rw [run_decode_ok env frames h1 h2 h3 h4, hup]
  rfl

/-- Full trace of a run in which every step and every upload succeeds. -/
lemma run_all_ok (env : PipelineEnv) (frames : List String)
    (h1 : env.tmpFile = none) (h2 : env.download = none) (h3 : env.tmpDir = none)
    (h4 : env.decode = Except.ok frames) (hB : env.batchSize ≠ 0)
    (hparse : ∀ file ∈ retainedOf env frames, (parseFrameIdx file).isSome)
    (hupload : ∀ p, env.upload p = none) :
    downloadAndExtractToS3 env =
      Action.cleanupVideo ::
        ((retainedOf env frames).map (fun file => Action.emitFrame (successFrame env file)) ++
         [Action.cleanupFrames,
          Action.emitEnd (frameMapOf ((retainedOf env frames).map (successFrame env))),
          Action.callbackOk (frameMapOf ((retainedOf env frames).map (successFrame env)))]) := by
  rw [run_decode_ok env frames h1 h2 h3 h4, uploadPhase_ok env frames hB hparse hupload]
  have hflat : ((makeBatches (retainedOf env frames) env.batchSize).map
      (fun c => c.map (successFrame env))).flatten =
        (retainedOf env frames).map (successFrame env) := by
    rw [← List.map_flatten, makeBatches_flatten _ _ hB]
  simp only [buildFrameMap, hflat]
  rfl

/-- A predicate false on `frame` events counts zero occurrences inside the
upload phase. -/
lemma countP_phase_zero (env : PipelineEnv) (frames : List String) (p : Action → Bool)
    (hp : ∀ f, p (Action.emitFrame f) = false) :
    (uploadPhase env frames).1.countP p = 0 := by
  rw [List.countP_eq_zero]
  intro a ha
  obtain ⟨f, rfl⟩ := uploadPhase_acts env frames a ha
  simp [hp f]

/-! ### Concrete-environment evaluations. -/

lemma retained_envOkW :
    retainedOf envOkW ["d/a_1.jpg", "d/a_2.jpg"] = ["d/a_1.jpg", "d/a_2.jpg"] := by
  rw [retainedOf, show strideNat envOkW.videoFps envOkW.requiredFps = 1 from stride_eval_1_1]
  exact downsample_one _

lemma retained_envUpFail :
    retainedOf envUpFail ["d/a_1.jpg"] = ["d/a_1.jpg"] := by
  rw [retainedOf,
      show strideNat envUpFail.videoFps envUpFail.requiredFps = 1 from stride_eval_1_1]
  exact downsample_one _

lemma retained_envBatchFail :
    retainedOf envBatchFail ["d/a_1.jpg", "d/a_2.jpg"] = ["d/a_1.jpg", "d/a_2.jpg"] := by
  rw [retainedOf,
      show strideNat envBatchFail.videoFps envBatchFail.requiredFps = 1 from stride_eval_1_1]
  exact downsample_one _

/-! ### Claim theorems. -/

/-- C1 (counterexample): the stride is NOT clamped to a minimum of 1. For the
positive rates `videoFps = 1, requiredFps = 3` the rounded stride is 0 and
the code retains no frame, while the claim's clamped-stride filter would
retain the frame at decoded index 0. -/
theorem C1_counterexample :
    strideNat 1 3 = 0 ∧
    downsample ["seg_1.jpg"] (strideNat 1 3) = [] ∧
    downsampleClaimedClamped ["seg_1.jpg"] 1 3 = ["seg_1.jpg"] ∧
    downsample ["seg_1.jpg"] (strideNat 1 3) ≠ downsampleClaimedClamped ["seg_1.jpg"] 1 3 := by
  have h0 := stride_eval_1_3
  refine ⟨h0, ?_, ?_, ?_⟩
  · rw [h0]
    exact downsample_zero _
  · rw [downsampleClaimedClamped, h0]
    decide
  · rw [downsampleClaimedClamped, h0]
    decide

/-- C1 (amended): whenever the rounded stride `round(videoFps/requiredFps)`
is at least 1, `downloadAndExtractToS3` retains exactly the frames whose
decoded index is a multiple of the stride; the stride is not clamped, and
when rounding yields 0 no frame is retained. -/
theorem C1_downsample_stride (frames : List String) (videoFps requiredFps : ℚ) :
    (strideNat videoFps requiredFps ≠ 0 →
      downsample frames (strideNat videoFps requiredFps) =
        ((List.range frames.length).filter
            (fun i => decide (i % strideNat videoFps requiredFps = 0))).filterMap
          (fun i => frames[i]?)) ∧
    (strideNat videoFps requiredFps = 0 →
      downsample frames (strideNat videoFps requiredFps) = []) := by
  constructor
  · intro h
    exact downsample_eq_multiples frames _ h
  · intro h
    rw [h]
    exact downsample_zero frames

/-- C1 (witness): for `videoFps = 30, requiredFps = 2` the stride is 15 and
the retained frames of a 16-frame list are exactly those at indices 0 and
15. -/
theorem C1_downsample_stride_witness :
    downsample (List.replicate 16 "f") (strideNat 30 2) =
      ((List.range (List.replicate 16 "f").length).filter
          (fun i => decide (i % strideNat 30 2 = 0))).filterMap
        (fun i => (List.replicate 16 "f")[i]?) :=
  (C1_downsample_stride (List.replicate 16 "f") 30 2).1
    (by rw [stride_eval_30_2]; decide)

/-- C3 (counterexample): with the default batch size 100 and exactly 100
tasks the source builds `floor(100/100) + 1 = 2` groups (the second one
empty), while the claim's `ceil(100/100)` is 1. -/
theorem C3_counterexample :
    (makeBatches (List.range 100) (sequencerBatchSize none)).length = 2 ∧
    (100 + 100 - 1) / 100 = 1 ∧
    (makeBatches (List.range 100) (sequencerBatchSize none)).length ≠ (100 + 100 - 1) / 100 := by
  refine ⟨?_, by norm_num, ?_⟩
  · rw [makeBatches_length]
    decide
  · rw [makeBatches_length]
    decide

/-- C3 (amended): for `N` tasks and batch size `B ≥ 1` the source produces
`floor(N/B) + 1` consecutive groups of at most `B` tasks whose concatenation
is the task list in order (one more group than `ceil(N/B)` when `B` divides
`N`, the trailing group being empty); the Sequencer's batch size defaults to
100 when constructed without a `batchSize` option. -/
theorem C3_batches (tasks : List Nat) (B : Nat) (hB : B ≠ 0) :
    (makeBatches tasks B).length = tasks.length / B + 1 ∧
    (makeBatches tasks B).flatten = tasks ∧
    (∀ b ∈ makeBatches tasks B, b.length ≤ B) ∧
    sequencerBatchSize none = 100 :=
  ⟨makeBatches_length tasks B, makeBatches_flatten tasks B hB, makeBatches_le tasks B, rfl⟩

/-- C3 (witness): three tasks with batch size 2 give `3/2 + 1 = 2` groups
`[[1, 2], [3]]`. -/
theorem C3_batches_witness :
    (makeBatches [1, 2, 3] 2).length = [1, 2, 3].length / 2 + 1 ∧
    (makeBatches [1, 2, 3] 2).flatten = [1, 2, 3] ∧
    (∀ b ∈ makeBatches [1, 2, 3] 2, b.length ≤ 2) ∧
    sequencerBatchSize none = 100 :=
  C3_batches [1, 2, 3] 2 (by decide)

/-- C8: when the decode step yields an empty frame list the operation
succeeds — after cleaning both scratch resources it emits `end` with the
empty frame map and resolves the callback with the same empty map; no error
is reported. -/
theorem C8_empty_decode (env : PipelineEnv)
    (h1 : env.tmpFile = none) (h2 : env.download = none) (h3 : env.tmpDir = none)
    (h4 : env.decode = Except.ok ([] : List String)) :
    downloadAndExtractToS3 env =
      [Action.cleanupVideo, Action.cleanupFrames, Action.emitEnd [], Action.callbackOk []] :=
  run_empty_retained env [] h1 h2 h3 h4 (by rw [retainedOf]; simp [downsample])

/-- C8 (witness): the concrete empty-decode run. -/
theorem C8_empty_decode_witness :
    downloadAndExtractToS3 envEmptyW =
      [Action.cleanupVideo, Action.cleanupFrames, Action.emitEnd [], Action.callbackOk []] :=
  C8_empty_decode envEmptyW rfl rfl rfl rfl

/-- C10: when `requiredFps` is more than double `videoFps`,
`Math.round(videoFps / requiredFps)` is 0, the filter `i % 0 === 0` holds for
no index, zero frames are retained, and the run resolves successfully with
the empty frame map instead of retaining all frames. -/
theorem C10_stride_zero (env : PipelineEnv) (frames : List String)
    (hv : 0 < env.videoFps) (hr : 2 * env.videoFps < env.requiredFps)
    (h1 : env.tmpFile = none) (h2 : env.download = none) (h3 : env.tmpDir = none)
    (h4 : env.decode = Except.ok frames) :
    strideNat env.videoFps env.requiredFps = 0 ∧
    (∀ i : Nat, keepIdx 0 i = false) ∧
    retainedOf env frames = [] ∧
    downloadAndExtractToS3 env =
      [Action.cleanupVideo, Action.cleanupFrames, Action.emitEnd [], Action.callbackOk []] := by
  have h0 := strideNat_eq_zero env.videoFps env.requiredFps hv hr
  have hempty : retainedOf env frames = [] := by
    rw [retainedOf, h0]
    exact downsample_zero frames
  exact ⟨h0, fun i => rfl, hempty, run_empty_retained env frames h1 h2 h3 h4 hempty⟩

/-- C10 (witness): `videoFps = 1, requiredFps = 3` on a one-frame decode. -/
theorem C10_stride_zero_witness :
    strideNat envZeroW.videoFps envZeroW.requiredFps = 0 ∧
    retainedOf envZeroW ["d/a_1.jpg"] = [] ∧
    downloadAndExtractToS3 envZeroW =
      [Action.cleanupVideo, Action.cleanupFrames, Action.emitEnd [], Action.callbackOk []] :=
  ⟨(C10_stride_zero envZeroW ["d/a_1.jpg"] (by decide)
      (by norm_num [envZeroW, envOkW]) rfl rfl rfl rfl).1,
   (C10_stride_zero envZeroW ["d/a_1.jpg"] (by decide)
      (by norm_num [envZeroW, envOkW]) rfl rfl rfl rfl).2.2.1,
   (C10_stride_zero envZeroW ["d/a_1.jpg"] (by decide)
      (by norm_num [envZeroW, envOkW]) rfl rfl rfl rfl).2.2.2⟩

/-- C5: `downloadFile` reports a `fatal`-marked error precisely when the
response status differs from 200 or the content type does not begin with
`video/`; when the response passes validation no error is reported by the
response handler; and a network-level stream error reaches the callback
without the fatal mark. -/
theorem C5_download_classification (uri : String) (res : HttpResponse) (msg : String) :
    ((∃ e, downloadResponseError uri res = some e ∧ e.fatal = true) ↔
      (res.statusCode ≠ 200 ∨ ¬ res.contentType.startsWith "video/")) ∧
    (downloadResponseError uri res = none ↔
      (res.statusCode = 200 ∧ res.contentType.startsWith "video/")) ∧
    (downloadStreamError msg).fatal = false := by
  refine ⟨?_, ?_, rfl⟩ <;>
    rw [downloadResponseError] <;>
    by_cases hs : res.statusCode = 200 <;>
    by_cases hct : res.contentType.startsWith "video/" <;>
    simp [hs, hct]

/-- C7: each lease-renewal timer is scheduled with delay
`timeUntilTimeout() - 1000` (a one-second safety margin before the lease
expires); while the message is unresponded every firing calls `touch()` and
re-schedules with the same margin rule; at the first firing that observes a
responded message no `touch()` is called and nothing is re-scheduled, so the
number of `touch()` calls equals the number of leading unresponded
observations. -/
theorem C7_lease_renewal (obs : List LeaseObs) (o : LeaseObs) :
    leaseDelay o = o.timeUntilTimeout - 1000 ∧
    touchRun obs =
      ((obs.takeWhile (fun x => !x.hasResponded)).map
          (fun x => (true, some (leaseDelay x)))) ++
        (if obs.dropWhile (fun x => !x.hasResponded) = [] then []
         else [((false : Bool), (none : Option Int))]) ∧
    (touchRun obs).countP (fun s => s.1) =
      (obs.takeWhile (fun x => !x.hasResponded)).length := by
  have hchar : ∀ l : List LeaseObs, touchRun l =
      ((l.takeWhile (fun x => !x.hasResponded)).map
          (fun x => (true, some (leaseDelay x)))) ++
        (if l.dropWhile (fun x => !x.hasResponded) = [] then []
         else [((false : Bool), (none : Option Int))]) := by
    intro l
    induction l with
    | nil => rfl
    | cons x l ih =>
      rw [touchRun, List.takeWhile_cons, List.dropWhile_cons]
      by_cases hx : x.hasResponded
      · simp [hx]
      · simp only [hx, Bool.not_false, if_true, List.map_cons, List.cons_append, ih]
        simp
  refine ⟨rfl, hchar obs, ?_⟩
  rw [hchar obs, List.countP_append, List.countP_map]
  have h1 : (obs.takeWhile (fun x => !x.hasResponded)).countP
      ((fun s : Bool × Option Int => s.1) ∘ (fun x => (true, some (leaseDelay x)))) =
      (obs.takeWhile (fun x => !x.hasResponded)).length := by
    simp [Function.comp]
  rw [h1]
  by_cases hd : obs.dropWhile (fun x => !x.hasResponded) = [] <;> simp [hd]

/-- A list of `frame` events only contains no occurrence of a predicate that
is false on `frame` events. -/
lemma countP_zero_of_emitFrame (l : List Action)
    (hl : ∀ a ∈ l, ∃ f, a = Action.emitFrame f) (p : Action → Bool)
    (hp : ∀ f, p (Action.emitFrame f) = false) : l.countP p = 0 := by
  rw [List.countP_eq_zero]
  intro a ha
  obtain ⟨f, rfl⟩ := hl a ha
  simp [hp f]

/-- C2 (counterexample): the scratch resources are NOT both released on every
completion. When the only upload fails, the operation settles (emits `error`
and calls the callback with the error) without ever deleting the temporary
frames directory; when the download fails, the temporary video file is never
deleted either. -/
theorem C2_counterexample :
    downloadAndExtractToS3 envUpFail =
      [Action.cleanupVideo, Action.emitError eBoom, Action.callbackErr eBoom] ∧
    Action.cleanupFrames ∉ downloadAndExtractToS3 envUpFail ∧
    downloadAndExtractToS3 envDlFail = [Action.emitError eNet, Action.callbackErr eNet] ∧
    Action.cleanupVideo ∉ downloadAndExtractToS3 envDlFail := by
  have hup : uploadPhase envUpFail ["d/a_1.jpg"] = ([], Except.error eBoom) := by
    rw [uploadPhase, tasksOf, retained_envUpFail]
    rfl
  have htr : downloadAndExtractToS3 envUpFail =
      [Action.cleanupVideo, Action.emitError eBoom, Action.callbackErr eBoom] := by
    rw [run_decode_ok envUpFail ["d/a_1.jpg"] rfl rfl rfl rfl, hup]
    rfl
  have htr2 : downloadAndExtractToS3 envDlFail =
      [Action.emitError eNet, Action.callbackErr eNet] := rfl
  refine ⟨htr, ?_, htr2, ?_⟩
  · rw [htr]
    decide
  · rw [htr2]
    decide

/-- C2 (amended): the temporary video file is deleted exactly once after the
decode step regardless of decode outcome, provided the run reaches the decode
step; the temporary frames directory is deleted exactly once when the batched
uploads succeed, but when the batch run fails (or the decode fails) the
operation settles without deleting it. -/
theorem C2_cleanup (env envF : PipelineEnv) (frames : List String) (eDec : JsError)
    (h1 : env.tmpFile = none) (h2 : env.download = none) (h3 : env.tmpDir = none)
    (h4 : env.decode = Except.ok frames)
    (g1 : envF.tmpFile = none) (g2 : envF.download = none) (g3 : envF.tmpDir = none)
    (g4 : envF.decode = Except.error eDec) :
    (downloadAndExtractToS3 env).countP isCleanupVideoA = 1 ∧
    (downloadAndExtractToS3 envF).countP isCleanupVideoA = 1 ∧
    (downloadAndExtractToS3 envF).countP isCleanupFramesA = 0 ∧
    ((uploadPhase env frames).2.isOk = true →
      (downloadAndExtractToS3 env).countP isCleanupFramesA = 1) ∧
    ((uploadPhase env frames).2.isOk = false →
      (downloadAndExtractToS3 env).countP isCleanupFramesA = 0) := by
  have hF := run_decode_err envF eDec g1 g2 g3 g4
  have hrun := run_decode_ok env frames h1 h2 h3 h4
  have hzV := countP_phase_zero env frames isCleanupVideoA (fun f => rfl)
  have hzF := countP_phase_zero env frames isCleanupFramesA (fun f => rfl)
  refine ⟨?_, ?_, ?_, ?_, ?_⟩
  · rw [hrun]
    cases hup : (uploadPhase env frames).2 with
    | error e =>
      simp only [hup]
      simp [List.countP_cons, List.countP_append, hzV, isCleanupVideoA]
    | ok results =>
      simp only [hup]
      simp [List.countP_cons, List.countP_append, hzV, isCleanupVideoA]
  · rw [hF]
    rfl
  · rw [hF]
    rfl
  · intro hok
    cases hup : (uploadPhase env frames).2 with
    | error e =>
      rw [hup] at hok
      simp [Except.isOk, Except.toBool] at hok
    | ok results =>
      rw [hrun]
      simp only [hup]
      simp [List.countP_cons, List.countP_append, hzF, isCleanupFramesA]
  · intro hok
    cases hup : (uploadPhase env frames).2 with
    | ok results =>
      rw [hup] at hok
      simp [Except.isOk, Except.toBool] at hok
    | error e =>
      rw [hrun]
      simp only [hup]
      simp [List.countP_cons, List.countP_append, hzF, isCleanupFramesA]

/-- C2 (witness): on the all-success run both scratch resources are cleaned
exactly once. -/
theorem C2_cleanup_witness :
    (downloadAndExtractToS3 envOkW).countP isCleanupVideoA = 1 ∧
    (downloadAndExtractToS3 envOkW).countP isCleanupFramesA = 1 := by
  have h := C2_cleanup envOkW envDecFail ["d/a_1.jpg", "d/a_2.jpg"] eDecode
    rfl rfl rfl rfl rfl rfl rfl rfl
  refine ⟨h.1, h.2.2.2.1 ?_⟩
  rw [uploadPhase_ok envOkW ["d/a_1.jpg", "d/a_2.jpg"] (by decide)
      (by rw [retained_envOkW]; decide) (fun p => rfl)]
  rfl

/-- C4: if a batch of uploads fails after a prefix of successful batches, the
run performs exactly the actions of the started batches and then surfaces the
single propagated error: one `error` callback, no `end` event, no frame map,
and no action of any batch after the failing one. -/
theorem C4_batch_failure (env : PipelineEnv) (frames : List String)
    (pre rest : List (List Action × Except JsError (List Frame)))
    (b : List Action × Except JsError (List Frame)) (e : JsError)
    (h1 : env.tmpFile = none) (h2 : env.download = none) (h3 : env.tmpDir = none)
    (h4 : env.decode = Except.ok frames)
    (hdec : (makeBatches (tasksOf env frames) env.batchSize).map processBatchM =
      pre ++ b :: rest)
    (hpre : ∀ x ∈ pre, ∃ r, x.2 = Except.ok r)
    (hb : b.2 = Except.error e) :
    downloadAndExtractToS3 env =
      Action.cleanupVideo :: ((pre.map Prod.fst).flatten ++ b.1) ++
        [Action.emitError e, Action.callbackErr e] ∧
    (downloadAndExtractToS3 env).countP isCallbackErrA = 1 ∧
    (downloadAndExtractToS3 env).countP isCallbackOkA = 0 ∧
    (downloadAndExtractToS3 env).countP isEmitEndA = 0 := by
  have hup : uploadPhase env frames =
      ((pre.map Prod.fst).flatten ++ b.1, Except.error e) := by
    rw [uploadPhase, hdec]
    exact seriesM_prefix_err pre rest b e hpre hb
  have htr : downloadAndExtractToS3 env =
      Action.cleanupVideo :: ((pre.map Prod.fst).flatten ++ b.1) ++
        [Action.emitError e, Action.callbackErr e] := by
    rw [run_decode_ok env frames h1 h2 h3 h4, hup]
  have hacts : ∀ a ∈ (pre.map Prod.fst).flatten ++ b.1, ∃ f, a = Action.emitFrame f := by
    have h := uploadPhase_acts env frames
    rw [hup] at h
    exact h
  have hactsA : ∀ a ∈ (pre.map Prod.fst).flatten, ∃ f, a = Action.emitFrame f :=
    fun a ha => hacts a (List.mem_append.mpr (Or.inl ha))
  have hactsB : ∀ a ∈ b.1, ∃ f, a = Action.emitFrame f :=
    fun a ha => hacts a (List.mem_append.mpr (Or.inr ha))
  refine ⟨htr, ?_, ?_, ?_⟩ <;> rw [htr] <;>
    simp [List.countP_cons, List.countP_append,
      countP_zero_of_emitFrame _ hactsA isCallbackErrA (fun f => rfl),
      countP_zero_of_emitFrame _ hactsB isCallbackErrA (fun f => rfl),
      countP_zero_of_emitFrame _ hactsA isCallbackOkA (fun f => rfl),
      countP_zero_of_emitFrame _ hactsB isCallbackOkA (fun f => rfl),
      countP_zero_of_emitFrame _ hactsA isEmitEndA (fun f => rfl),
      countP_zero_of_emitFrame _ hactsB isEmitEndA (fun f => rfl),
      isCallbackErrA, isCallbackOkA, isEmitEndA]

/-- C4 (witness): two frames in one batch, the second upload failing: the
first task's `frame` event still fires, then the single error is surfaced;
no later batch runs and no map is produced. -/
theorem C4_batch_failure_witness :
    downloadAndExtractToS3 envBatchFail =
      Action.cleanupVideo ::
        ((([] : List (List Action × Except JsError (List Frame))).map Prod.fst).flatten ++
          [Action.emitFrame
            { idx := 1, uri := "https://bkt.s3.amazonaws.com/vid/seg/1.jpg" }]) ++
        [Action.emitError eBoom, Action.callbackErr eBoom] ∧
    (downloadAndExtractToS3 envBatchFail).countP isCallbackErrA = 1 ∧
    (downloadAndExtractToS3 envBatchFail).countP isCallbackOkA = 0 ∧
    (downloadAndExtractToS3 envBatchFail).countP isEmitEndA = 0 :=
  C4_batch_failure envBatchFail ["d/a_1.jpg", "d/a_2.jpg"] [] []
    ([Action.emitFrame { idx := 1, uri := "https://bkt.s3.amazonaws.com/vid/seg/1.jpg" }],
      Except.error eBoom)
    eBoom rfl rfl rfl rfl
    (by rw [tasksOf, retained_envBatchFail]; rfl)
    (by intro x hx; simp at hx)
    rfl

/-- C6: when every upload succeeds, the run emits exactly one `frame` event
per retained frame (each fired by that frame's own successful upload), then
a single `end` event carrying the full frame map, and resolves the callback
with the same map; with distinct retained indices the map binds exactly each
retained frame's index to its uploaded URI. -/
theorem C6_success_trace (env : PipelineEnv) (frames : List String)
    (h1 : env.tmpFile = none) (h2 : env.download = none) (h3 : env.tmpDir = none)
    (h4 : env.decode = Except.ok frames) (hB : env.batchSize ≠ 0)
    (hparse : ∀ file ∈ retainedOf env frames, (parseFrameIdx file).isSome)
    (hupload : ∀ p, env.upload p = none) :
    downloadAndExtractToS3 env =
      Action.cleanupVideo ::
        ((retainedOf env frames).map (fun file => Action.emitFrame (successFrame env file)) ++
         [Action.cleanupFrames,
          Action.emitEnd (frameMapOf ((retainedOf env frames).map (successFrame env))),
          Action.callbackOk (frameMapOf ((retainedOf env frames).map (successFrame env)))]) ∧
    ((((retainedOf env frames).map (successFrame env)).map Frame.idx).Nodup →
      frameMapOf ((retainedOf env frames).map (successFrame env)) =
        ((retainedOf env frames).map (successFrame env)).map (fun f => (f.idx, f.uri))) :=
  ⟨run_all_ok env frames h1 h2 h3 h4 hB hparse hupload,
   fun h => frameMapOf_nodup _ h⟩

/-- C6 (witness): the all-success two-frame run emits the two `frame` events
in upload order, then `end` with the map, then resolves with the same map. -/
theorem C6_success_trace_witness :
    downloadAndExtractToS3 envOkW =
      Action.cleanupVideo ::
        ((retainedOf envOkW ["d/a_1.jpg", "d/a_2.jpg"]).map
            (fun file => Action.emitFrame (successFrame envOkW file)) ++
         [Action.cleanupFrames,
          Action.emitEnd (frameMapOf ((retainedOf envOkW ["d/a_1.jpg", "d/a_2.jpg"]).map
            (successFrame envOkW))),
          Action.callbackOk (frameMapOf ((retainedOf envOkW ["d/a_1.jpg", "d/a_2.jpg"]).map
            (successFrame envOkW)))]) :=
  (C6_success_trace envOkW ["d/a_1.jpg", "d/a_2.jpg"] rfl rfl rfl rfl (by decide)
    (by rw [retained_envOkW]; decide) (fun p => rfl)).1

/-- C9: every uploaded frame object is written with ACL `public-read`,
content type `image/jpeg`, and key
`{videoId}/{segmentBaseName}/{idx}{extension}` where `segmentBaseName`
concatenated with the URI's extension is exactly the video URI's base name;
the reported URI is `https://{bucket}.s3.amazonaws.com/{key}`. -/
theorem C9_upload_object (env : PipelineEnv) (file : String) (idx : Nat)
    (hp : parseFrameIdx file = some idx)
    (hne : posixBasename env.videoUri ≠ posixExtname env.videoUri) :
    (uploadParams file env.s3Bucket (s3DirOf env) (toString idx ++ posixExtname file)).acl =
      "public-read" ∧
    (uploadParams file env.s3Bucket (s3DirOf env)
        (toString idx ++ posixExtname file)).contentType = "image/jpeg" ∧
    (uploadParams file env.s3Bucket (s3DirOf env) (toString idx ++ posixExtname file)).key =
      env.videoId ++ "/" ++ posixBasename2 env.videoUri (posixExtname env.videoUri) ++ "/" ++
        (toString idx ++ posixExtname file) ∧
    posixBasename2 env.videoUri (posixExtname env.videoUri) ++ posixExtname env.videoUri =
      posixBasename env.videoUri ∧
    getObjectUri env.s3Bucket
        (uploadParams file env.s3Bucket (s3DirOf env)
          (toString idx ++ posixExtname file)).key =
      "https://" ++ env.s3Bucket ++ ".s3.amazonaws.com/" ++
        (uploadParams file env.s3Bucket (s3DirOf env)
          (toString idx ++ posixExtname file)).key :=
  ⟨rfl, rfl, rfl, basename2_ext_append env.videoUri hne, rfl⟩

/-- C9 (witness): frame file `d/frame_7.jpg` of segment URI
`http://h/seg.mp4` in bucket `bkt`. -/
theorem C9_upload_object_witness :
    (uploadParams "d/frame_7.jpg" envOkW.s3Bucket (s3DirOf envOkW)
        (toString 7 ++ posixExtname "d/frame_7.jpg")).acl = "public-read" ∧
    (uploadParams "d/frame_7.jpg" envOkW.s3Bucket (s3DirOf envOkW)
        (toString 7 ++ posixExtname "d/frame_7.jpg")).contentType = "image/jpeg" ∧
    (uploadParams "d/frame_7.jpg" envOkW.s3Bucket (s3DirOf envOkW)
        (toString 7 ++ posixExtname "d/frame_7.jpg")).key =
      envOkW.videoId ++ "/" ++ posixBasename2 envOkW.videoUri (posixExtname envOkW.videoUri) ++
        "/" ++ (toString 7 ++ posixExtname "d/frame_7.jpg") ∧
    posixBasename2 envOkW.videoUri (posixExtname envOkW.videoUri) ++
        posixExtname envOkW.videoUri = posixBasename envOkW.videoUri ∧
    getObjectUri envOkW.s3Bucket
        (uploadParams "d/frame_7.jpg" envOkW.s3Bucket (s3DirOf envOkW)
          (toString 7 ++ posixExtname "d/frame_7.jpg")).key =
      "https://" ++ envOkW.s3Bucket ++ ".s3.amazonaws.com/" ++
        (uploadParams "d/frame_7.jpg" envOkW.s3Bucket (s3DirOf envOkW)
          (toString 7 ++ posixExtname "d/frame_7.jpg")).key :=
  C9_upload_object envOkW "d/frame_7.jpg" 7 (by decide) (by decide)

end VideoFrames
